import Mathlib

/-!
# contxt: a request context over net/http

A shallow embedding of `contxt.go` and `mimes.go`.

* Go values that travel through `interface{}` parameters are `GoValue`s.
* The response writer is a Go interface, so every operation takes the
  implementation `W : Sink σ` and threads its state `σ` explicitly.
* The libraries the package calls (net/http request parsing, jsoniter,
  gorilla/schema) are the fields of `Stack`.
* A call either returns or panics: `Outcome`.
-/

namespace contxt

/-! ## Data model -/

/-- Byte slices, Go `[]byte`. -/
abbrev Bytes := List UInt8

/-- The conversion `[]byte(s)` of a Go string: its UTF-8 bytes. -/
def bytesOf (s : String) : Bytes := s.toUTF8.data.toList

/-- Go `strings.HasPrefix(s, p)`. -/
def HasPrefix (s p : String) : Bool := p.data.isPrefixOf s.data

/-- Go `http.Header` and `url.Values`: keys with their lists of values. -/
abbrev Values := List (String × List String)

/-- The kinds of `reflect.Kind` that the model distinguishes. -/
inductive Kind where
  | Invalid | Bool | Int | String | Slice | Func | Map | Struct | Ptr
  deriving DecidableEq, Repr

/-- A struct field as reflection sees it (`reflect.StructField`): its name,
whether it is exported, and the key/value pairs of its struct tag. -/
structure StructField where
  name : String
  exported : Bool
  tag : List (String × String)
  deriving DecidableEq, Repr

/-- A value passed as `interface{}`, together with what it points to. -/
inductive GoValue where
  /-- the nil interface value: no dynamic type -/
  | nil
  | bool (b : Bool)
  | int (n : Int)
  /-- a value of type `string` -/
  | str (s : String)
  /-- a value of type `[]byte` -/
  | bytes (b : Bytes)
  /-- a function value -/
  | func
  | map (entries : List (String × GoValue))
  | struct (fields : List (StructField × GoValue))
  /-- a pointer; `none` is the nil pointer -/
  | ptr (target : Option GoValue)

/-- Either a call returns a value, or it panics. -/
inductive Outcome (α : Type) where
  | returned (a : α)
  | panicked

/-- Go `reflect.TypeOf(v)` followed by `.Kind()`: `reflect.TypeOf` of the nil
interface is the nil `Type`, on which `.Kind()` cannot be called (`none`). -/
def typeKind : GoValue → Option Kind
  | .nil => none
  | .bool _ => some .Bool
  | .int _ => some .Int
  | .str _ => some .String
  | .bytes _ => some .Slice
  | .func => some .Func
  | .map _ => some .Map
  | .struct _ => some .Struct
  | .ptr _ => some .Ptr

/-- Go `reflect.Indirect(reflect.ValueOf(v))`: the value a pointer points to;
for a nil pointer the zero `reflect.Value` (`none`); a non-pointer is returned
unchanged. -/
def indirect : GoValue → Option GoValue
  | .ptr target => target
  | v => some v

/-- Go `reflect.Value.Kind()`: the zero `reflect.Value` has kind `Invalid`. -/
def valueKind : Option GoValue → Kind
  | none => .Invalid
  | some v => (typeKind v).getD .Invalid

/-- The fields of a struct value, `NumField()` of them; none for any other
value. -/
def structFields : Option GoValue → List (StructField × GoValue)
  | some (.struct fields) => fields
  | _ => []

/-- Go `reflect.StructTag.Get(key)`: the value of `key` in the tag, or the
empty string when the tag has no such key. -/
def tagGet (tag : List (String × String)) (key : String) : String :=
  (tag.lookup key).getD ""

/-- Go `reflect.Value.SetString` on field `f` holding `x`: it panics (`none`)
unless the field is settable (exported) and of kind `String`. -/
def setString (f : StructField) (x : GoValue) (s : String) : Option GoValue :=
  if f.exported then
    match x with
    | .str _ => some (.str s)
    | _ => none
  else none

/-- The inbound request (`Request` wraps `*http.Request`). -/
structure Request where
  /-- `r.Header` -/
  header : Values
  /-- the bytes of `r.Body` that have not been read yet -/
  body : Bytes
  /-- the parameters of the URL query string -/
  urlQuery : Values
  /-- `r.Form` -/
  form : Values
  /-- `r.PostForm` -/
  postForm : Values
  deriving DecidableEq, Repr

/-- An implementation of the `http.ResponseWriter` interface over a state `σ`,
with net/http's `Redirect`, which acts on a response writer. -/
structure Sink (σ : Type) where
  /-- `w.Header().Set(key, value)` -/
  headerSet : String → String → σ → σ
  /-- `w.WriteHeader(code)` -/
  writeHeader : Int → σ → σ
  /-- `w.Write(data)`, with the `(int, error)` it returns -/
  write : Bytes → σ → (Int × Option String) × σ
  /-- `http.Redirect(w, r, url, code)` -/
  redirect : Request → String → Int → σ → σ

/-- The libraries behind the request side: net/http, jsoniter and
gorilla/schema. An `error` is `none` for nil and `some msg` otherwise. -/
structure Stack where
  /-- `textproto.CanonicalMIMEHeaderKey` -/
  canonicalKey : String → String
  /-- `ioutil.ReadAll(body)`: the bytes and error returned, and the body left -/
  readAll : Bytes → (Bytes × Option String) × Bytes
  /-- `jsoniter.Unmarshal(data, v)`: the error and the target afterwards -/
  unmarshal : Bytes → GoValue → Option String × GoValue
  /-- `jsoniter.Marshal(v)`: the `([]byte, error)` returned -/
  marshal : GoValue → Bytes × Option String
  /-- `r.ParseForm()`: the error and the request afterwards -/
  parseForm : Request → Option String × Request
  /-- `r.ParseMultipartForm(maxMemory)` -/
  parseMultipartForm : Int → Request → Option String × Request
  /-- `schemaDecoder.Decode(dst, src)`: the error and the target afterwards -/
  schemaDecode : GoValue → Values → Option String × GoValue

/-- The receiver `Ctx`. -/
structure Ctx (σ : Type) where
  responseStatus : Int
  request : Request
  writer : σ

/-! ## Constants -/

def tagName : String := "header"

def MIMEApplicationJSON : String := "application/json"
def MIMEApplicationJavaScript : String := "application/javascript"
def MIMEApplicationXML : String := "application/xml"
def MIMETextXML : String := "text/xml"
def MIMEApplicationForm : String := "application/x-www-form-urlencoded"
def MIMEApplicationProtobuf : String := "application/protobuf"
def MIMEApplicationMsgpack : String := "application/msgpack"
def MIMETextHTML : String := "text/html"
def MIMETextPlain : String := "text/plain"
def MIMEMultipartForm : String := "multipart/form-data"
def MIMEOctetStream : String := "application/octet-stream"

/-- Go `http.StatusOK`. -/
def StatusOK : Int := 200

/-- Go `http.StatusFound`. -/
def StatusFound : Int := 302

/-! ## Operations -/

/-- Go `New(w, r)`: the status starts at the zero value. -/
def New {σ : Type} (w : σ) (r : Request) : Ctx σ :=
  { responseStatus := 0, request := r, writer := w }

/-- Go `http.Header.Get(key)`: the first value stored under the canonical
form of `key`, or the empty string. -/
def headerGet (S : Stack) (h : Values) (key : String) : String :=
  match h.lookup (S.canonicalKey key) with
  | some (v :: _) => v
  | _ => ""

/-- Go `(*Ctx).Get`. -/
def Get {σ : Type} (S : Stack) (ctx : Ctx σ) (key : String) : String :=
  headerGet S ctx.request.header key

/-- The loop of `Headers` over the fields, in order: each field is set to the
header named by its tag. The flag is `false` when `SetString`
panicked; that field and the ones after it are then left as they were. -/
def setHeaderFields (get : String → String) :
    List (StructField × GoValue) → Bool × List (StructField × GoValue)
  | [] => (true, [])
  | (f, x) :: rest =>
    match setString f x (get (tagGet f.tag tagName)) with
    | none => (false, (f, x) :: rest)
    | some y => ((setHeaderFields get rest).1, (f, y) :: (setHeaderFields get rest).2)

/-- Go `(*Ctx).Headers`: the outcome and the argument afterwards. -/
def Headers {σ : Type} (S : Stack) (v : GoValue) (ctx : Ctx σ) :
    Outcome (Option String) × GoValue :=
  match typeKind v with
  | none => (.panicked, v)
  | some k =>
    if k ≠ Kind.Ptr then
      (.returned (some "value should be a pointer"), v)
    else
      let valPtr := indirect v
      if valueKind valPtr ≠ Kind.Struct then
        (.returned (some "type of value should be a struct"), v)
      else
        match setHeaderFields (Get S ctx) (structFields valPtr) with
        | (true, fs) => (.returned none, .ptr (some (.struct fs)))
        | (false, fs) => (.panicked, .ptr (some (.struct fs)))

/-- Go `(*Ctx).BodyParser`: the error, the target afterwards and the context
afterwards. -/
def BodyParser {σ : Type} (S : Stack) (v : GoValue) (ctx : Ctx σ) :
    Option String × GoValue × Ctx σ :=
  let ctype := headerGet S ctx.request.header "Content-Type"
  if HasPrefix ctype MIMEApplicationJSON then
    let r := S.readAll ctx.request.body
    let ctx1 := { ctx with request := { ctx.request with body := r.2 } }
    match r.1.2 with
    | some err => (some err, v, ctx1)
    | none => ((S.unmarshal r.1.1 v).1, (S.unmarshal r.1.1 v).2, ctx1)
  else if HasPrefix ctype MIMEApplicationForm then
    let p := S.parseForm ctx.request
    match p.1 with
    | some err => (some err, v, { ctx with request := p.2 })
    | none =>
      ((S.schemaDecode v p.2.postForm).1, (S.schemaDecode v p.2.postForm).2,
        { ctx with request := p.2 })
  else if HasPrefix ctype MIMEMultipartForm then
    let p := S.parseMultipartForm ((32 : Int) <<< 20) ctx.request
    match p.1 with
    | some err => (some err, v, { ctx with request := p.2 })
    | none =>
      ((S.schemaDecode v p.2.form).1, (S.schemaDecode v p.2.form).2,
        { ctx with request := p.2 })
  else
    (some ("cannot parse content-type: " ++ ctype), v, ctx)

/-- Go `(*Ctx).Query`: the first value of `key` in the URL query, or the empty
string. -/
def Query {σ : Type} (ctx : Ctx σ) (key : String) : String :=
  match ctx.request.urlQuery.lookup key with
  | some (v :: _) => v
  | _ => ""

/-- The status a write call commits: 200 when none has been set. -/
def pendingStatus (responseStatus : Int) : Int :=
  if responseStatus = 0 then StatusOK else responseStatus

/-- Go `(*Ctx).JSON`: the error returned and the context afterwards. The
result of both `Write` calls is dropped. -/
def JSON {σ : Type} (W : Sink σ) (S : Stack) (v : GoValue) (ctx : Ctx σ) :
    Option String × Ctx σ :=
  let w1 := W.headerSet "Content-Type" MIMEApplicationJSON ctx.writer
  let status := pendingStatus ctx.responseStatus
  let w2 := W.writeHeader status w1
  let m := S.marshal (.ptr (some v))
  match m.2 with
  | some err =>
    (some err, { ctx with responseStatus := status, writer := (W.write (bytesOf "") w2).2 })
  | none =>
    (none, { ctx with responseStatus := status, writer := (W.write m.1 w2).2 })

/-- Go `(*Ctx).Redirect`. -/
def Redirect {σ : Type} (W : Sink σ) (path : String) (status : List Int) (ctx : Ctx σ) :
    Ctx σ :=
  let code := match status with
    | [] => StatusFound
    | c :: _ => c
  let w1 := W.headerSet "Location" path ctx.writer
  { ctx with writer := W.redirect ctx.request path code w1 }

/-- Go `(*Ctx).Send`. The result of `Write` and the error of `Marshal` are
dropped. -/
def Send {σ : Type} (W : Sink σ) (S : Stack) (args : List GoValue) (ctx : Ctx σ) : Ctx σ :=
  let status := pendingStatus ctx.responseStatus
  let w1 := W.writeHeader status ctx.writer
  match args with
  | [] => { ctx with responseStatus := status, writer := w1 }
  | .str body :: _ =>
    { ctx with responseStatus := status, writer := (W.write (bytesOf body) w1).2 }
  | .bytes body :: _ =>
    { ctx with responseStatus := status, writer := (W.write body w1).2 }
  | body :: _ =>
    { ctx with responseStatus := status, writer := (W.write (S.marshal body).1 w1).2 }

/-- Go `(*Ctx).Status`: the receiver, which is also what the call returns. -/
def Status {σ : Type} (code : Int) (ctx : Ctx σ) : Ctx σ :=
  { ctx with responseStatus := code }

/-- Go `(*Ctx).XML`. -/
def XML {σ : Type} (W : Sink σ) (S : Stack) (v : GoValue) (ctx : Ctx σ) : Ctx σ :=
  Send W S [v] { ctx with writer := W.headerSet "Content-Type" MIMEApplicationXML ctx.writer }

/-- The bytes `Send` hands to `Write` for its first argument: the cases of
its type switch. -/
def sendBody (S : Stack) : GoValue → Bytes
  | .str s => bytesOf s
  | .bytes b => b
  | v => (S.marshal v).1

/-! ## A recording response writer -/

/-- One call on the response writer. -/
inductive WriterCall where
  | headerSet (key value : String)
  | writeHeader (code : Int)
  | write (data : Bytes)
  | redirect (url : String) (code : Int)
  deriving DecidableEq, Repr

/-- The response writer that appends every call made on it to a log. Its
`Write` reports `res data`. -/
def recorder (res : Bytes → Int × Option String) : Sink (List WriterCall) where
  headerSet key value log := log ++ [.headerSet key value]
  writeHeader code log := log ++ [.writeHeader code]
  write data log := (res data, log ++ [.write data])
  redirect _ url code log := log ++ [.redirect url code]

/-- The status line a net/http response writer sends for a log of calls: the
code of the first `WriteHeader` wins, later ones are ignored; a `Write` that
comes first sends 200; `http.Redirect` sends its code. -/
def committedStatus : List WriterCall → Option Int
  | [] => none
  | .headerSet _ _ :: rest => committedStatus rest
  | .writeHeader code :: _ => some code
  | .write _ :: _ => some StatusOK
  | .redirect _ code :: _ => some code

/-- The `WriteHeader` calls of a log, in order. -/
def writeHeaderCalls : List WriterCall → List Int
  | [] => []
  | .writeHeader code :: rest => code :: writeHeaderCalls rest
  | _ :: rest => writeHeaderCalls rest

/-- The body bytes handed to `Write`, in order. -/
def bodyWritten : List WriterCall → Bytes
  | [] => []
  | .write data :: rest => data ++ bodyWritten rest
  | _ :: rest => bodyWritten rest

/-- A call of one of the status and write operations of a context. -/
inductive Call where
  | Status (code : Int)
  | Send (args : List GoValue)
  | JSON (v : GoValue)
  | XML (v : GoValue)

/-- Whether the call is a write call (`Send`, `JSON`, `XML`). -/
def Call.isWrite : Call → Bool
  | .Status _ => false
  | _ => true

/-- One call on the context. -/
def step {σ : Type} (W : Sink σ) (S : Stack) (c : Call) (ctx : Ctx σ) : Ctx σ :=
  match c with
  | .Status code => Status code ctx
  | .Send args => Send W S args ctx
  | .JSON v => (JSON W S v ctx).2
  | .XML v => XML W S v ctx

/-- A sequence of calls on the context, first to last. -/
def run {σ : Type} (W : Sink σ) (S : Stack) : List Call → Ctx σ → Ctx σ
  | [], ctx => ctx
  | c :: rest, ctx => run W S rest (step W S c ctx)

/-! ## Stand-ins for the libraries, for evaluating on concrete inputs -/

/-- The JSON text of a scalar: nil, booleans, integers and strings made of
characters that need no escaping. -/
def scalarJSON : GoValue → Option String
  | .nil => some "null"
  | .bool b => some (if b then "true" else "false")
  | .int n => some (toString n)
  | .str s =>
    if s.data.all (fun c => c != Char.ofNat 34 && c != Char.ofNat 92
        && 32 ≤ c.toNat && c.toNat < 127) then
      some ("\"" ++ s ++ "\"")
    else none
  | .ptr none => some "null"
  | _ => none

/-- The JSON text of a list of map entries with scalar values. -/
def entriesJSON : List (String × GoValue) → Option (List String)
  | [] => some []
  | (k, v) :: rest =>
    match scalarJSON (.str k), scalarJSON v, entriesJSON rest with
    | some key, some val, some more => some ((key ++ ":" ++ val) :: more)
    | _, _, _ => none

/-- The JSON text of a scalar or of a map of scalars. -/
def valueJSON : GoValue → Option String
  | .map entries => (entriesJSON entries).map (fun es => "\x7b" ++ ",".intercalate es ++ "\x7d")
  | v => scalarJSON v

/-- A stand-in for `jsoniter.Marshal` on scalars and maps of scalars, and on
pointers to them; every other value is reported as unsupported. -/
def standInMarshal : GoValue → Bytes × Option String
  | .ptr (some v) =>
    match valueJSON v with
    | some s => (bytesOf s, none)
    | none => ([], some "unsupported type")
  | v =>
    match valueJSON v with
    | some s => (bytesOf s, none)
    | none => ([], some "unsupported type")

/-- A stand-in for `schemaDecoder.Decode`: every field whose `schema` tag is a
key of `src` receives the first value of that key. -/
def standInDecode (dst : GoValue) (src : Values) : Option String × GoValue :=
  match dst with
  | .ptr (some (.struct fields)) =>
    (none, .ptr (some (.struct (fields.map (fun fx =>
      match src.lookup (tagGet fx.1.tag "schema") with
      | some (s :: _) => (fx.1, GoValue.str s)
      | _ => fx)))))
  | _ => (some "schema: interface must be a pointer to struct", dst)

/-- A stand-in for the libraries, for a request whose body holds the form
pairs `bodyPairs`. Header keys are taken as canonical; `ReadAll` drains the
body; `Unmarshal` stores the bytes in a pointer to a byte slice; `ParseForm`
and `ParseMultipartForm` put the body pairs in `PostForm`, and the body pairs
followed by the URL query pairs in `Form`, as net/http documents. -/
def standIn (bodyPairs : Values) : Stack where
  canonicalKey key := key
  readAll body := ((body, none), [])
  unmarshal data v :=
    match v with
    | .ptr (some (.bytes _)) => (none, .ptr (some (.bytes data)))
    | _ => (some "unsupported target", v)
  marshal := standInMarshal
  parseForm r :=
    (none, { r with body := [], postForm := bodyPairs, form := bodyPairs ++ r.urlQuery })
  parseMultipartForm _ r :=
    (none, { r with body := [], postForm := bodyPairs, form := bodyPairs ++ r.urlQuery })
  schemaDecode := standInDecode

/-- The recorder whose `Write` reports the number of bytes and no error. -/
def okRecorder : Sink (List WriterCall) := recorder (fun data => (data.length, none))

/-- A request with the given headers and nothing else. -/
def requestWith (header : Values) : Request :=
  { header := header, body := [], urlQuery := [], form := [], postForm := [] }

/-! ## Theorems -/

section BodyParser

/-- C1: when the Content-Type value (the empty string when the header is
missing) starts with none of "application/json",
"application/x-www-form-urlencoded" and "multipart/form-data", `BodyParser`
returns the error "cannot parse content-type: " followed by that value,
whatever the libraries do: the target and the context, with the request body
in it, are what they were. -/
theorem C1_bodyParser_unsupported_media_type {σ : Type} (S : Stack) (v : GoValue)
    (ctx : Ctx σ)
    (hjson : HasPrefix (Get S ctx "Content-Type") MIMEApplicationJSON = false)
    (hform : HasPrefix (Get S ctx "Content-Type") MIMEApplicationForm = false)
    (hmulti : HasPrefix (Get S ctx "Content-Type") MIMEMultipartForm = false) :
    BodyParser S v ctx
      = (some ("cannot parse content-type: " ++ Get S ctx "Content-Type"), v, ctx) := by
  unfold Get at hjson hform hmulti
  simp only [BodyParser, Get, hjson, hform, hmulti]
  rfl

/-- C1 at `Content-Type: text/plain` and at a request without the header. -/
theorem C1_bodyParser_unsupported_media_type_witness :
    BodyParser (standIn []) (.ptr (some (.bytes [])))
        (New ([] : List WriterCall)
          { requestWith [("Content-Type", ["text/plain"])] with body := [1, 2, 3] })
      = (some "cannot parse content-type: text/plain", .ptr (some (.bytes [])),
          New ([] : List WriterCall)
            { requestWith [("Content-Type", ["text/plain"])] with body := [1, 2, 3] })
    ∧ BodyParser (standIn []) (.ptr (some (.bytes [])))
        (New ([] : List WriterCall) { requestWith [] with body := [1, 2, 3] })
      = (some "cannot parse content-type: ", .ptr (some (.bytes [])),
          New ([] : List WriterCall) { requestWith [] with body := [1, 2, 3] }) :=
  ⟨C1_bodyParser_unsupported_media_type (standIn []) _ _ (by decide) (by decide) (by decide),
   C1_bodyParser_unsupported_media_type (standIn []) _ _ (by decide) (by decide) (by decide)⟩

end BodyParser

section Headers

/-- The field loop succeeds on exported string fields, and sets each of them
to the header named by its tag. -/
theorem setHeaderFields_settable (get : String → String)
    (fields : List (StructField × GoValue))
    (hset : ∀ fx ∈ fields, fx.1.exported = true ∧ ∃ s, fx.2 = GoValue.str s) :
    setHeaderFields get fields
      = (true, fields.map (fun fx => (fx.1, GoValue.str (get (tagGet fx.1.tag tagName))))) := by
  induction fields with
  | nil => rfl
  | cons fx rest ih =>
    obtain ⟨f, x⟩ := fx
    obtain ⟨hexp, s, hs⟩ := hset (f, x) (List.mem_cons_self _ _)
    have hrest := ih (fun gx hg => hset gx (List.mem_cons_of_mem _ hg))
    simp only at hexp hs
    subst hs
    simp [setHeaderFields, setString, hexp, hrest]

/-- A typed argument that is not a pointer is rejected with "value should be a
pointer" and left as it was. -/
theorem headers_non_pointer {σ : Type} (S : Stack) (ctx : Ctx σ) (v : GoValue) (k : Kind)
    (hk : typeKind v = some k) (hptr : k ≠ Kind.Ptr) :
    Headers S v ctx = (.returned (some "value should be a pointer"), v) := by
  simp [Headers, hk, hptr]

/-- A pointer that does not point to a struct (the nil pointer included) is
rejected with "type of value should be a struct" and left as it was. -/
theorem headers_pointer_non_struct {σ : Type} (S : Stack) (ctx : Ctx σ)
    (target : Option GoValue) (hkind : valueKind target ≠ Kind.Struct) :
    Headers S (.ptr target) ctx
      = (.returned (some "type of value should be a struct"), .ptr target) := by
  simp [Headers, typeKind, indirect, hkind]

/-- C2: `Headers(nil)`, the nil interface, does not return an error: the call
`reflect.TypeOf(v).Kind()` that is to check for a pointer panics. -/
theorem C2_headers_nil_interface_panics {σ : Type} (S : Stack) (ctx : Ctx σ) :
    Headers S GoValue.nil ctx = (Outcome.panicked, GoValue.nil) := by
  rfl

/-- C3, as claimed, fails: a struct whose only field is an unexported string
field tagged `header:"X-Foo"` makes `Headers` panic, and the nil pointer to a
struct gets the error "type of value should be a struct". -/
theorem C3_headers_counterexample :
    (Headers (standIn [])
        (.ptr (some (.struct [({ name := "foo", exported := false, tag := [("header", "X-Foo")] },
          .str "")])))
        (New ([] : List WriterCall) (requestWith [("X-Foo", ["bar"])]))).1
      = Outcome.panicked
    ∧ (Headers (standIn []) (.ptr none)
        (New ([] : List WriterCall) (requestWith [("X-Foo", ["bar"])]))).1
      = Outcome.returned (some "type of value should be a struct") :=
  ⟨rfl, rfl⟩

/-- C3, amended: for every non-nil pointer to a struct whose fields are all
exported string fields, `Headers` returns nil and afterwards every field
holds `Get(tag)` for its `header` tag, which is the first value stored for the
header of that name, and the empty string when there is none. -/
theorem C3_headers_sets_every_field {σ : Type} (S : Stack) (ctx : Ctx σ)
    (fields : List (StructField × GoValue))
    (hset : ∀ fx ∈ fields, fx.1.exported = true ∧ ∃ s, fx.2 = GoValue.str s) :
    Headers S (.ptr (some (.struct fields))) ctx
        = (.returned none, .ptr (some (.struct
            (fields.map (fun fx => (fx.1, GoValue.str (Get S ctx (tagGet fx.1.tag tagName))))))))
      ∧ (∀ key first more,
          ctx.request.header.lookup (S.canonicalKey key) = some (first :: more) →
            Get S ctx key = first)
      ∧ (∀ key,
          ctx.request.header.lookup (S.canonicalKey key) = none → Get S ctx key = "") := by
  refine ⟨?_, ?_, ?_⟩
  · simp [Headers, typeKind, indirect, valueKind, structFields,
      setHeaderFields_settable (Get S ctx) fields hset]
  · intro key first more h
    simp [Get, headerGet, h]
  · intro key h
    simp [Get, headerGet, h]

/-- C3 on the struct with the one field `Foo` tagged `header:"X-Foo"`: with
the request header `X-Foo: bar` the field ends as "bar", without it as "". -/
theorem C3_headers_sets_every_field_witness :
    Headers (standIn [])
        (.ptr (some (.struct [({ name := "Foo", exported := true, tag := [("header", "X-Foo")] },
          .str "old")])))
        (New ([] : List WriterCall) (requestWith [("X-Foo", ["bar"])]))
      = (.returned none,
          .ptr (some (.struct [({ name := "Foo", exported := true, tag := [("header", "X-Foo")] },
            .str "bar")])))
    ∧ Headers (standIn [])
        (.ptr (some (.struct [({ name := "Foo", exported := true, tag := [("header", "X-Foo")] },
          .str "old")])))
        (New ([] : List WriterCall) (requestWith []))
      = (.returned none,
          .ptr (some (.struct [({ name := "Foo", exported := true, tag := [("header", "X-Foo")] },
            .str "")]))) :=
  ⟨(C3_headers_sets_every_field (standIn []) _ _ (by
      intro fx h
      simp only [List.mem_singleton] at h
      subst h
      exact ⟨rfl, "old", rfl⟩)).1,
   (C3_headers_sets_every_field (standIn []) _ _ (by
      intro fx h
      simp only [List.mem_singleton] at h
      subst h
      exact ⟨rfl, "old", rfl⟩)).1⟩

end Headers

section Log

/-- What is committed stays committed when more calls are logged. -/
theorem committedStatus_append_of_some (a b : List WriterCall) (code : Int)
    (h : committedStatus a = some code) : committedStatus (a ++ b) = some code := by
  induction a with
  | nil => simp [committedStatus] at h
  | cons x rest ih =>
    cases x <;> simp_all [committedStatus]

/-- While nothing is committed, the calls logged next decide. -/
theorem committedStatus_append_of_none (a b : List WriterCall)
    (h : committedStatus a = none) : committedStatus (a ++ b) = committedStatus b := by
  induction a with
  | nil => rfl
  | cons x rest ih =>
    cases x <;> simp_all [committedStatus]

/-- The `WriteHeader` calls of two logs put together. -/
theorem writeHeaderCalls_append (a b : List WriterCall) :
    writeHeaderCalls (a ++ b) = writeHeaderCalls a ++ writeHeaderCalls b := by
  induction a with
  | nil => rfl
  | cons x rest ih =>
    cases x <;> simp_all [writeHeaderCalls]

/-- The body bytes of two logs put together. -/
theorem bodyWritten_append (a b : List WriterCall) :
    bodyWritten (a ++ b) = bodyWritten a ++ bodyWritten b := by
  induction a with
  | nil => rfl
  | cons x rest ih =>
    cases x <;> simp_all [bodyWritten]

end Log

section Writing

/-- C4: on a context whose status is unset, `Send` with at least one argument
calls `WriteHeader(200)` and then `Write` once, with a body that depends on
the first argument only: the bytes of a string, a byte slice as it is, and
for any other value the bytes `jsoniter.Marshal` returns for it; the
arguments after the first play no part. -/
theorem C4_send_first_argument (res : Bytes → Int × Option String) (S : Stack)
    (ctx : Ctx (List WriterCall)) (hunset : ctx.responseStatus = 0) :
    (∀ (s : String) (more : List GoValue),
        Send (recorder res) S (.str s :: more) ctx
          = { ctx with responseStatus := 200,
                       writer := ctx.writer ++ [.writeHeader 200, .write (bytesOf s)] })
      ∧ (∀ (b : Bytes) (more : List GoValue),
        Send (recorder res) S (.bytes b :: more) ctx
          = { ctx with responseStatus := 200,
                       writer := ctx.writer ++ [.writeHeader 200, .write b] })
      ∧ (∀ (a : GoValue) (more : List GoValue),
        (∀ s, a ≠ GoValue.str s) → (∀ b, a ≠ GoValue.bytes b) →
        Send (recorder res) S (a :: more) ctx
          = { ctx with responseStatus := 200,
                       writer := ctx.writer ++ [.writeHeader 200, .write (S.marshal a).1] }) := by
  refine ⟨?_, ?_, ?_⟩
  · intro s more
    simp [Send, recorder, pendingStatus, StatusOK, hunset]
  · intro b more
    simp [Send, recorder, pendingStatus, StatusOK, hunset]
  · intro a more hs hb
    cases a with
    | str s => exact absurd rfl (hs s)
    | bytes b => exact absurd rfl (hb b)
    | _ => simp [Send, recorder, pendingStatus, StatusOK, hunset]

/-- C4 on a fresh context: `Send("hello")` gives status 200 and the body
hello; `Send([]byte{1, 2}, "x")` writes the two bytes; `Send(7, "x")` writes
the JSON text 7. -/
theorem C4_send_first_argument_witness :
    Send okRecorder (standIn []) [.str "hello"] (New [] (requestWith []))
        = ({ request := requestWith [], responseStatus := 200,
             writer := [.writeHeader 200, .write (bytesOf "hello")] } :
             Ctx (List WriterCall))
      ∧ bytesOf "hello" = [104, 101, 108, 108, 111]
      ∧ Send okRecorder (standIn []) [.bytes [1, 2], .str "x"] (New [] (requestWith []))
        = ({ request := requestWith [], responseStatus := 200,
             writer := [.writeHeader 200, .write [1, 2]] } :
             Ctx (List WriterCall))
      ∧ Send okRecorder (standIn []) [.int 7, .str "x"] (New [] (requestWith []))
        = ({ request := requestWith [], responseStatus := 200,
             writer := [.writeHeader 200, .write [55]] } :
             Ctx (List WriterCall)) :=
  ⟨(C4_send_first_argument _ (standIn []) (New [] (requestWith [])) rfl).1 "hello" [],
   by decide,
   (C4_send_first_argument _ (standIn []) (New [] (requestWith [])) rfl).2.1 [1, 2] [.str "x"],
   (C4_send_first_argument _ (standIn []) (New [] (requestWith [])) rfl).2.2 (.int 7) [.str "x"]
      (fun _ h => GoValue.noConfusion h) (fun _ h => GoValue.noConfusion h)⟩

/-- C5: for every status code `c` other than 0, `Status(c)` makes no call on
the response writer and hands back the context with `c` recorded and nothing
else changed; `Send()` after it calls `WriteHeader(c)` and nothing else: no
body byte is written, and `c` is the status committed when nothing was
committed before. -/
theorem C5_status_then_send (res : Bytes → Int × Option String) (S : Stack)
    (ctx : Ctx (List WriterCall)) (c : Int) (hc : c ≠ 0) :
    Status c ctx = { ctx with responseStatus := c }
      ∧ (Status c ctx).writer = ctx.writer
      ∧ Send (recorder res) S [] (Status c ctx)
          = { ctx with responseStatus := c, writer := ctx.writer ++ [.writeHeader c] }
      ∧ bodyWritten (Send (recorder res) S [] (Status c ctx)).writer = bodyWritten ctx.writer
      ∧ (committedStatus ctx.writer = none →
          committedStatus (Send (recorder res) S [] (Status c ctx)).writer = some c) := by
  have hsend : Send (recorder res) S [] (Status c ctx)
      = { ctx with responseStatus := c, writer := ctx.writer ++ [.writeHeader c] } := by
    simp [Send, Status, recorder, pendingStatus, hc]
  refine ⟨rfl, rfl, hsend, ?_, ?_⟩
  · rw [hsend]
    simp [bodyWritten_append, bodyWritten]
  · intro hfresh
    rw [hsend]
    simp [committedStatus_append_of_none _ _ hfresh, committedStatus]

/-- C5 at `Status(404)` then `Send()` on a fresh context: status 404 and an
empty body. -/
theorem C5_status_then_send_witness :
    Send okRecorder (standIn []) [] (Status 404 (New [] (requestWith [])))
        = ({ request := requestWith [], responseStatus := 404,
             writer := [.writeHeader 404] } :
             Ctx (List WriterCall))
      ∧ bodyWritten
          (Send okRecorder (standIn []) [] (Status 404 (New [] (requestWith [])))).writer
        = []
      ∧ committedStatus
          (Send okRecorder (standIn []) [] (Status 404 (New [] (requestWith [])))).writer
        = some 404 :=
  ⟨(C5_status_then_send _ (standIn []) (New [] (requestWith [])) 404 (by decide)).2.2.1,
   (C5_status_then_send _ (standIn []) (New [] (requestWith [])) 404 (by decide)).2.2.2.1,
   (C5_status_then_send _ (standIn []) (New [] (requestWith [])) 404 (by decide)).2.2.2.2 rfl⟩

/-- C6: when `jsoniter.Marshal(&v)` reports no error, `JSON(v)` returns nil
after these calls, in this order: `Header().Set("Content-Type",
"application/json")`, `WriteHeader` with the pending status (200 when none
was set), and `Write` with exactly the bytes of the serialization. -/
theorem C6_json_writes_serialization (res : Bytes → Int × Option String) (S : Stack)
    (ctx : Ctx (List WriterCall)) (v : GoValue)
    (hok : (S.marshal (.ptr (some v))).2 = none) :
    JSON (recorder res) S v ctx
      = (none,
          { ctx with
              responseStatus := if ctx.responseStatus = 0 then 200 else ctx.responseStatus,
              writer := ctx.writer ++
                [.headerSet "Content-Type" "application/json",
                 .writeHeader (if ctx.responseStatus = 0 then 200 else ctx.responseStatus),
                 .write (S.marshal (.ptr (some v))).1] }) := by
  simp [JSON, recorder, pendingStatus, StatusOK, MIMEApplicationJSON, hok]

/-- C6 at `JSON(map{"a":1})` on a fresh context: Content-Type
application/json, status 200 and the body `{"a":1}`. -/
theorem C6_json_writes_serialization_witness :
    JSON okRecorder (standIn []) (.map [("a", .int 1)]) (New [] (requestWith []))
        = (none,
            ({ request := requestWith [], responseStatus := 200,
               writer :=
                 [.headerSet "Content-Type" "application/json",
                  .writeHeader 200,
                  .write (bytesOf "\x7b\"a\":1\x7d")] } :
               Ctx (List WriterCall))) :=
  C6_json_writes_serialization _ (standIn []) (New [] (requestWith [])) (.map [("a", .int 1)]) rfl

/-- C7: `Redirect(path)` calls `Header().Set("Location", path)` and then
`http.Redirect` with `path` and 302; with status arguments it passes the
first of them instead, whatever the others are. The pending status of the
context is left as it was and has no influence on the calls. -/
theorem C7_redirect (res : Bytes → Int × Option String) (ctx : Ctx (List WriterCall))
    (path : String) :
    Redirect (recorder res) path [] ctx
        = { ctx with writer := ctx.writer ++ [.headerSet "Location" path, .redirect path 302] }
      ∧ (∀ (code : Int) (more : List Int),
          Redirect (recorder res) path (code :: more) ctx
            = { ctx with
                  writer := ctx.writer ++ [.headerSet "Location" path, .redirect path code] })
      ∧ (∀ (status : List Int) (pending : Int),
          (Redirect (recorder res) path status { ctx with responseStatus := pending }).writer
            = (Redirect (recorder res) path status ctx).writer
          ∧ (Redirect (recorder res) path status
              { ctx with responseStatus := pending }).responseStatus = pending) := by
  refine ⟨?_, ?_, ?_⟩
  · simp [Redirect, recorder, StatusFound]
  · intro code more
    simp [Redirect, recorder]
  · intro status pending
    exact ⟨rfl, rfl⟩

/-- C10: when `jsoniter.Marshal(&v)` reports an error, `JSON(v)` returns that
error, whatever `Write` reports. By then it has called
`Header().Set("Content-Type", "application/json")` and `WriteHeader` with the
pending status (200 when none was set); the one `Write` that follows carries
no bytes. -/
theorem C10_json_serialization_failure (res : Bytes → Int × Option String) (S : Stack)
    (ctx : Ctx (List WriterCall)) (v : GoValue) (err : String)
    (hfail : (S.marshal (.ptr (some v))).2 = some err) :
    JSON (recorder res) S v ctx
      = (some err,
          { ctx with
              responseStatus := if ctx.responseStatus = 0 then 200 else ctx.responseStatus,
              writer := ctx.writer ++
                [.headerSet "Content-Type" "application/json",
                 .writeHeader (if ctx.responseStatus = 0 then 200 else ctx.responseStatus),
                 .write []] }) := by
  have hempty : bytesOf "" = [] := by decide
  simp [JSON, recorder, pendingStatus, StatusOK, MIMEApplicationJSON, hfail, hempty]

/-- C10 at `JSON(f)` for a function value `f`, on a writer whose `Write`
fails: the serialization error is what comes back. -/
theorem C10_json_serialization_failure_witness :
    JSON (recorder (fun _ => (0, some "broken pipe"))) (standIn []) .func
        (New [] (requestWith []))
      = (some "unsupported type",
          ({ request := requestWith [], responseStatus := 200,
             writer :=
               [.headerSet "Content-Type" "application/json", .writeHeader 200, .write []] } :
             Ctx (List WriterCall))) :=
  C10_json_serialization_failure _ (standIn []) (New [] (requestWith [])) .func
    "unsupported type" rfl

end Writing

section Dispatch

/-- A prefix test that holds exposes the rest of the string. -/
theorem hasPrefix_iff (s p : String) : HasPrefix s p = true ↔ ∃ t, s.data = p.data ++ t := by
  unfold HasPrefix
  rw [List.isPrefixOf_iff_prefix]
  constructor
  · rintro ⟨t, ht⟩
    exact ⟨t, ht.symm⟩
  · rintro ⟨t, ht⟩
    exact ⟨t, ht.symm⟩

/-- Two prefixes that differ within their first `n` characters are never
prefixes of the same string. -/
theorem hasPrefix_exclusive (s p q : String) (n : Nat) (hp : n ≤ p.data.length)
    (hq : n ≤ q.data.length) (hne : p.data.take n ≠ q.data.take n) :
    ¬ (HasPrefix s p = true ∧ HasPrefix s q = true) := by
  rintro ⟨h1, h2⟩
  obtain ⟨t1, e1⟩ := (hasPrefix_iff s p).1 h1
  obtain ⟨t2, e2⟩ := (hasPrefix_iff s q).1 h2
  apply hne
  have h := congrArg (List.take n) (e1.symm.trans e2)
  rwa [List.take_append_of_le_length hp, List.take_append_of_le_length hq] at h

/-- C8: on a request with the URL query `a=1` whose body holds the form pair
`b=2`, the url-encoded branch populates the target from the pairs of
`PostForm` (field `b` only), while the multipart branch populates the same
target from the pairs of `Form` and so also fills field `a` from the URL
query: the two branches do not decode the same key/value pairs. -/
theorem C8_bodyParser_multipart_decodes_form :
    (BodyParser (standIn [("b", ["2"])])
        (.ptr (some (.struct
          [({ name := "A", exported := true, tag := [("schema", "a")] }, .str ""),
           ({ name := "B", exported := true, tag := [("schema", "b")] }, .str "")])))
        (New ([] : List WriterCall)
          { requestWith [("Content-Type", ["application/x-www-form-urlencoded"])] with
              urlQuery := [("a", ["1"])] })).2.1
      = .ptr (some (.struct
          [({ name := "A", exported := true, tag := [("schema", "a")] }, .str ""),
           ({ name := "B", exported := true, tag := [("schema", "b")] }, .str "2")]))
    ∧ (BodyParser (standIn [("b", ["2"])])
        (.ptr (some (.struct
          [({ name := "A", exported := true, tag := [("schema", "a")] }, .str ""),
           ({ name := "B", exported := true, tag := [("schema", "b")] }, .str "")])))
        (New ([] : List WriterCall)
          { requestWith [("Content-Type", ["multipart/form-data; boundary=x"])] with
              urlQuery := [("a", ["1"])] })).2.1
      = .ptr (some (.struct
          [({ name := "A", exported := true, tag := [("schema", "a")] }, .str "1"),
           ({ name := "B", exported := true, tag := [("schema", "b")] }, .str "2")])) :=
  ⟨rfl, rfl⟩

/-- What each branch of `BodyParser` calls. The decoder is picked by a
case-sensitive prefix test on the Content-Type value. With the prefix
"application/json" the whole body is read and handed to `jsoniter.Unmarshal`;
with "application/x-www-form-urlencoded" the code calls `ParseForm` and
decodes `PostForm`; with "multipart/form-data" it calls `ParseMultipartForm`
with a memory limit of 33554432 bytes and decodes `Form`. No string has two
of the three prefixes, and "Application/JSON" has none of them. -/
theorem bodyParser_dispatch {σ : Type} (S : Stack) (v : GoValue) (ctx : Ctx σ) :
    (HasPrefix (Get S ctx "Content-Type") MIMEApplicationJSON = true →
        ∀ data rest, S.readAll ctx.request.body = ((data, none), rest) →
          BodyParser S v ctx
            = ((S.unmarshal data v).1, (S.unmarshal data v).2,
                { ctx with request := { ctx.request with body := rest } }))
      ∧ (HasPrefix (Get S ctx "Content-Type") MIMEApplicationForm = true →
        ∀ r, S.parseForm ctx.request = (none, r) →
          BodyParser S v ctx
            = ((S.schemaDecode v r.postForm).1, (S.schemaDecode v r.postForm).2,
                { ctx with request := r }))
      ∧ (HasPrefix (Get S ctx "Content-Type") MIMEMultipartForm = true →
        ∀ r, S.parseMultipartForm 33554432 ctx.request = (none, r) →
          BodyParser S v ctx
            = ((S.schemaDecode v r.form).1, (S.schemaDecode v r.form).2,
                { ctx with request := r }))
      ∧ (∀ s : String,
          ¬ (HasPrefix s MIMEApplicationJSON = true ∧ HasPrefix s MIMEApplicationForm = true)
          ∧ ¬ (HasPrefix s MIMEApplicationJSON = true ∧ HasPrefix s MIMEMultipartForm = true)
          ∧ ¬ (HasPrefix s MIMEApplicationForm = true ∧ HasPrefix s MIMEMultipartForm = true))
      ∧ (HasPrefix "Application/JSON" MIMEApplicationJSON = false
          ∧ HasPrefix "Application/JSON" MIMEApplicationForm = false
          ∧ HasPrefix "Application/JSON" MIMEMultipartForm = false) := by
  have hjf : ∀ s : String,
      ¬ (HasPrefix s MIMEApplicationJSON = true ∧ HasPrefix s MIMEApplicationForm = true) :=
    fun s => hasPrefix_exclusive s _ _ 13 (by decide) (by decide) (by decide)
  have hjm : ∀ s : String,
      ¬ (HasPrefix s MIMEApplicationJSON = true ∧ HasPrefix s MIMEMultipartForm = true) :=
    fun s => hasPrefix_exclusive s _ _ 1 (by decide) (by decide) (by decide)
  have hfm : ∀ s : String,
      ¬ (HasPrefix s MIMEApplicationForm = true ∧ HasPrefix s MIMEMultipartForm = true) :=
    fun s => hasPrefix_exclusive s _ _ 1 (by decide) (by decide) (by decide)
  have hlimit : ((32 : Int) <<< 20) = 33554432 := by decide
  refine ⟨?_, ?_, ?_, fun s => ⟨hjf s, hjm s, hfm s⟩, by decide, by decide, by decide⟩
  · intro hj data rest hread
    unfold Get at hj
    simp only [BodyParser, hj, hread]
    rfl
  · intro hf r hparse
    have hj : HasPrefix (Get S ctx "Content-Type") MIMEApplicationJSON = false := by
      cases h : HasPrefix (Get S ctx "Content-Type") MIMEApplicationJSON
      · rfl
      · exact absurd ⟨h, hf⟩ (hjf _)
    unfold Get at hj hf
    simp only [BodyParser, hj, hf, hparse]
    rfl
  · intro hm r hparse
    have hj : HasPrefix (Get S ctx "Content-Type") MIMEApplicationJSON = false := by
      cases h : HasPrefix (Get S ctx "Content-Type") MIMEApplicationJSON
      · rfl
      · exact absurd ⟨h, hm⟩ (hjm _)
    have hf : HasPrefix (Get S ctx "Content-Type") MIMEApplicationForm = false := by
      cases h : HasPrefix (Get S ctx "Content-Type") MIMEApplicationForm
      · rfl
      · exact absurd ⟨h, hm⟩ (hfm _)
    unfold Get at hj hf hm
    simp only [BodyParser, hj, hf, hm, hlimit, hparse]
    rfl

end Dispatch

section StatusLock

/-- Running two sequences of calls one after the other. -/
theorem run_append {σ : Type} (W : Sink σ) (S : Stack) (xs ys : List Call) (ctx : Ctx σ) :
    run W S (xs ++ ys) ctx = run W S ys (run W S xs ctx) := by
  induction xs generalizing ctx with
  | nil => rfl
  | cons x rest ih => simp [run, ih]

/-- Calls that are not write calls leave the response writer alone. -/
theorem run_no_write {σ : Type} (W : Sink σ) (S : Stack) (pre : List Call) (ctx : Ctx σ)
    (hpre : ∀ c ∈ pre, c.isWrite = false) : (run W S pre ctx).writer = ctx.writer := by
  induction pre generalizing ctx with
  | nil => rfl
  | cons c rest ih =>
    have hc := hpre c (List.mem_cons_self _ _)
    have hrest := ih (step W S c ctx) (fun d hd => hpre d (List.mem_cons_of_mem _ hd))
    cases c with
    | Status code => simpa [run, step, Status] using hrest
    | Send args => simp [Call.isWrite] at hc
    | JSON v => simp [Call.isWrite] at hc
    | XML v => simp [Call.isWrite] at hc

/-- The log of `Send`: one `WriteHeader` with the pending status, then at
most one `Write`. -/
theorem send_writer (res : Bytes → Int × Option String) (S : Stack) (args : List GoValue)
    (ctx : Ctx (List WriterCall)) :
    ∃ tail, (Send (recorder res) S args ctx).writer
        = ctx.writer ++ .writeHeader (pendingStatus ctx.responseStatus) :: tail
      ∧ writeHeaderCalls tail = [] := by
  cases args with
  | nil => exact ⟨[], by simp [Send, recorder], rfl⟩
  | cons a more =>
    refine ⟨[.write (sendBody S a)], ?_, rfl⟩
    cases a <;> simp [Send, recorder, sendBody]

/-- The log of a write call: `Header().Set` calls, one `WriteHeader` with the
pending status, and no other `WriteHeader`. -/
theorem step_write_writer (res : Bytes → Int × Option String) (S : Stack) (w : Call)
    (ctx : Ctx (List WriterCall)) (hw : w.isWrite = true) :
    ∃ head tail, (step (recorder res) S w ctx).writer
        = ctx.writer ++ head ++ .writeHeader (pendingStatus ctx.responseStatus) :: tail
      ∧ committedStatus head = none ∧ writeHeaderCalls head = []
      ∧ writeHeaderCalls tail = [] := by
  cases w with
  | Status code => simp [Call.isWrite] at hw
  | Send args =>
    obtain ⟨tail, h1, h2⟩ := send_writer res S args ctx
    exact ⟨[], tail, by simpa [step] using h1, rfl, rfl, h2⟩
  | JSON v =>
    cases hm : (S.marshal (.ptr (some v))).2 with
    | none =>
      exact ⟨[.headerSet "Content-Type" MIMEApplicationJSON],
        [.write (S.marshal (.ptr (some v))).1],
        by simp [step, JSON, recorder, hm], rfl, rfl, rfl⟩
    | some err =>
      exact ⟨[.headerSet "Content-Type" MIMEApplicationJSON], [.write (bytesOf "")],
        by simp [step, JSON, recorder, hm], rfl, rfl, rfl⟩
  | XML v =>
    obtain ⟨tail, h1, h2⟩ := send_writer res S [v]
      { ctx with writer := ctx.writer ++ [.headerSet "Content-Type" MIMEApplicationXML] }
    exact ⟨[.headerSet "Content-Type" MIMEApplicationXML], tail,
      by simpa [step, XML, recorder] using h1, rfl, rfl, h2⟩

/-- Every call only adds to the log; a write call adds exactly one
`WriteHeader`, a `Status` call none. -/
theorem step_writer_grows (res : Bytes → Int × Option String) (S : Stack) (c : Call)
    (ctx : Ctx (List WriterCall)) :
    ∃ added, (step (recorder res) S c ctx).writer = ctx.writer ++ added
      ∧ (writeHeaderCalls added).length = (if c.isWrite then 1 else 0) := by
  cases hc : c.isWrite with
  | false =>
    cases c with
    | Status code => exact ⟨[], by simp [step, Status], rfl⟩
    | Send args => simp [Call.isWrite] at hc
    | JSON v => simp [Call.isWrite] at hc
    | XML v => simp [Call.isWrite] at hc
  | true =>
    obtain ⟨head, tail, h1, _, h3, h4⟩ := step_write_writer res S c ctx hc
    refine ⟨head ++ .writeHeader (pendingStatus ctx.responseStatus) :: tail, ?_, ?_⟩
    · simpa [List.append_assoc] using h1
    · simp [writeHeaderCalls_append, writeHeaderCalls, h3, h4]

/-- A sequence of calls only adds to the log, one `WriteHeader` per write
call. -/
theorem run_writer_grows (res : Bytes → Int × Option String) (S : Stack) (cs : List Call)
    (ctx : Ctx (List WriterCall)) :
    ∃ added, (run (recorder res) S cs ctx).writer = ctx.writer ++ added
      ∧ (writeHeaderCalls added).length = (cs.filter Call.isWrite).length := by
  induction cs generalizing ctx with
  | nil => exact ⟨[], by simp [run], rfl⟩
  | cons c rest ih =>
    obtain ⟨a1, h1, n1⟩ := step_writer_grows res S c ctx
    obtain ⟨a2, h2, n2⟩ := ih (step (recorder res) S c ctx)
    refine ⟨a1 ++ a2, ?_, ?_⟩
    · simp [run, h2, h1, List.append_assoc]
    · cases hc : c.isWrite <;>
        simp_all [writeHeaderCalls_append, List.filter_cons, Nat.add_comm]

/-- C9, as claimed, fails: in `Send()`, `Status(500)`, `Send()` on a fresh
context the second `Send` calls `WriteHeader` again, with 500. -/
theorem C9_status_lock_counterexample :
    writeHeaderCalls
        (run okRecorder (standIn []) [.Send [], .Status 500, .Send []]
          (New [] (requestWith []))).writer
      = [200, 500] := by
  decide

/-- C9, amended: take calls on a context whose writer has nothing committed:
calls `pre` none of which is a write call, then a write call `w`, then any
calls `post`. Nothing is committed by `pre`. With a writer that keeps the
status of its first `WriteHeader`, the committed status in the end is the
status pending when `w` was called (200 if it was 0), whatever `post` is.
Every write call among `w` and `post` calls `WriteHeader` once, so later write
calls do call it again. -/
theorem C9_first_write_locks_status (res : Bytes → Int × Option String) (S : Stack)
    (ctx : Ctx (List WriterCall)) (pre : List Call) (w : Call) (post : List Call)
    (hfresh : committedStatus ctx.writer = none)
    (hpre : ∀ c ∈ pre, c.isWrite = false) (hw : w.isWrite = true) :
    committedStatus (run (recorder res) S pre ctx).writer = none
      ∧ committedStatus (run (recorder res) S (pre ++ w :: post) ctx).writer
          = some (if (run (recorder res) S pre ctx).responseStatus = 0 then 200
                  else (run (recorder res) S pre ctx).responseStatus)
      ∧ (writeHeaderCalls (run (recorder res) S (pre ++ w :: post) ctx).writer).length
          = (writeHeaderCalls ctx.writer).length + ((w :: post).filter Call.isWrite).length := by
  have hquiet := run_no_write (recorder res) S pre ctx hpre
  refine ⟨by rw [hquiet]; exact hfresh, ?_, ?_⟩
  · obtain ⟨head, tail, h1, h2, _, _⟩ :=
      step_write_writer res S w (run (recorder res) S pre ctx) hw
    obtain ⟨added, h5, _⟩ :=
      run_writer_grows res S post (step (recorder res) S w (run (recorder res) S pre ctx))
    have hcommit : committedStatus (step (recorder res) S w (run (recorder res) S pre ctx)).writer
        = some (pendingStatus (run (recorder res) S pre ctx).responseStatus) := by
      rw [h1, hquiet, List.append_assoc, committedStatus_append_of_none _ _ hfresh,
        committedStatus_append_of_none _ _ h2]
      rfl
    rw [run_append]
    simp only [run]
    rw [h5, committedStatus_append_of_some _ _ _ hcommit]
    rfl
  · obtain ⟨added, h1, h2⟩ := run_writer_grows res S (pre ++ w :: post) ctx
    rw [h1, writeHeaderCalls_append, List.length_append, h2, List.filter_append]
    have hnone : pre.filter Call.isWrite = [] := by
      rw [List.filter_eq_nil_iff]
      intro c hc
      simp [hpre c hc]
    simp [hnone]

/-- C9 at `Status(404)`, `JSON(nil)`, `Status(500)`, `Send("x")` on a fresh
context: the committed status is 404, and `WriteHeader` was called twice. -/
theorem C9_first_write_locks_status_witness :
    committedStatus
        (run okRecorder (standIn []) [.Status 404, .JSON .nil, .Status 500, .Send [.str "x"]]
          (New [] (requestWith []))).writer
      = some 404
    ∧ (writeHeaderCalls
        (run okRecorder (standIn []) [.Status 404, .JSON .nil, .Status 500, .Send [.str "x"]]
          (New [] (requestWith []))).writer).length
      = 2 :=
  ⟨(C9_first_write_locks_status _ (standIn []) (New [] (requestWith [])) [.Status 404]
      (.JSON .nil) [.Status 500, .Send [.str "x"]] rfl
      (by intro c hc; simp only [List.mem_singleton] at hc; subst hc; rfl) rfl).2.1,
   (C9_first_write_locks_status _ (standIn []) (New [] (requestWith [])) [.Status 404]
      (.JSON .nil) [.Status 500, .Send [.str "x"]] rfl
      (by intro c hc; simp only [List.mem_singleton] at hc; subst hc; rfl) rfl).2.2⟩

end StatusLock

end contxt
